import Mathlib

/-!
Verification development for the agent-orchestration backend
(`backend/core/agent_manager.py`, `backend/core/workspace_manager.py`,
`backend/core/skill_manager.py`, `backend/routers/agents.py`,
`backend/routers/skills.py`, `backend/database/sqlite.py`).

Python strings are modelled as Lean `String` (lists of characters where
convenient), dicts holding records as Lean structures, database tables as
lists of records, and the module-level mutable maps of `agent_manager.py`
as fields of an explicit state structure.  Python `re.search` is modelled
by a Brzozowski-derivative regular-expression engine over `List Char`;
`re.IGNORECASE` is modelled by lowercasing the subject string (the
patterns below are written with lowercase literals).
-/

namespace OWork

/-! ## A small regular-expression engine (models Python `re.search`)

`Regex.cls neg cs` matches a single character: one of `cs` when `neg = false`,
any character not in `cs` when `neg = true` (so `cls true []` matches every
character, and `cls true ['\n']` is `.`). -/

inductive Regex where
  | emptyset : Regex
  | eps : Regex
  | cls : Bool → List Char → Regex
  | cat : Regex → Regex → Regex
  | alt : Regex → Regex → Regex
  | star : Regex → Regex
deriving DecidableEq, Repr

namespace Regex

/-- A single literal character. -/
def chr (c : Char) : Regex := .cls false [c]

/-- `.` in Python `re`: any character except a newline. -/
def dot : Regex := .cls true ['\n']

/-- `r?` -/
def opt (r : Regex) : Regex := .alt .eps r

/-- `r+` -/
def plus (r : Regex) : Regex := .cat r (.star r)

/-- `\s`: ASCII whitespace (the commands under analysis are ASCII). -/
def ws : Regex := .cls false [' ', '\t', '\n', '\x0d', '\x0b', '\x0c']

/-- A literal string. -/
def lit (s : String) : Regex := s.data.foldr (fun c r => .cat (chr c) r) .eps

/-- Whether the regex accepts the empty string. -/
def nullable : Regex → Bool
  | .emptyset => false
  | .eps => true
  | .cls _ _ => false
  | .cat a b => nullable a && nullable b
  | .alt a b => nullable a || nullable b
  | .star _ => true

/-- Smart concatenation (keeps derivatives small). -/
def mkCat : Regex → Regex → Regex
  | .emptyset, _ => .emptyset
  | .eps, r => r
  | a, b =>
    match b with
    | .emptyset => .emptyset
    | .eps => a
    | b => .cat a b

/-- Smart alternation (keeps derivatives small). -/
def mkAlt : Regex → Regex → Regex
  | .emptyset, r => r
  | a, b =>
    match b with
    | .emptyset => a
    | b => if a = b then a else .alt a b

/-- Brzozowski derivative with respect to one character. -/
def deriv : Regex → Char → Regex
  | .emptyset, _ => .emptyset
  | .eps, _ => .emptyset
  | .cls neg cs, c => if (cs.contains c) != neg then .eps else .emptyset
  | .cat a b, c =>
    if nullable a then mkAlt (mkCat (deriv a c) b) (deriv b c)
    else mkCat (deriv a c) b
  | .alt a b, c => mkAlt (deriv a c) (deriv b c)
  | .star r, c => mkCat (deriv r c) (.star r)

/-- Does some prefix of `s` match `r`? -/
def prefMatch : Regex → List Char → Bool
  | r, [] => nullable r
  | r, c :: rest => nullable r || prefMatch (deriv r c) rest

/-- Does `r` match somewhere inside `s` (the semantics of a truthy
`re.search(r, s)`)? -/
def search (r : Regex) : List Char → Bool
  | [] => prefMatch r []
  | c :: rest => prefMatch r (c :: rest) || search r rest

end Regex

/-- `re.search(pattern, s, re.IGNORECASE)` is truthy.  Case-insensitivity is
modelled by lowercasing the subject; the patterns are written lowercase. -/
def reSearchCI (r : Regex) (s : String) : Bool :=
  Regex.search r (s.data.map Char.toLower)

/-! ## Dangerous-command classification (`agent_manager.py:224-253`) -/

open Regex in
/-- `r'rm\s+(-[rfRf]+\s+)?/'` (the class `[rfRf]` is `{r, f}` under
`re.IGNORECASE`). -/
def patRmRoot : Regex :=
  mkCat (lit "rm") (mkCat (plus ws)
    (mkCat (opt (mkCat (chr '-') (mkCat (plus (.cls false ['r', 'f'])) (plus ws))))
      (chr '/')))

open Regex in
/-- `r'rm\s+(-[rfRf]+\s+)?~'` -/
def patRmHome : Regex :=
  mkCat (lit "rm") (mkCat (plus ws)
    (mkCat (opt (mkCat (chr '-') (mkCat (plus (.cls false ['r', 'f'])) (plus ws))))
      (chr '~')))

open Regex in
/-- `r'rm\s+-[rfRf]+'` -/
def patRmRecursive : Regex :=
  mkCat (lit "rm") (mkCat (plus ws) (mkCat (chr '-') (plus (.cls false ['r', 'f']))))

open Regex in
/-- `r'dd\s+if=/dev/(zero|random|urandom)'` -/
def patDd : Regex :=
  mkCat (lit "dd") (mkCat (plus ws)
    (mkCat (lit "if=/dev/") (mkAlt (lit "zero") (mkAlt (lit "random") (lit "urandom")))))

open Regex in
/-- `r'mkfs'` -/
def patMkfs : Regex := lit "mkfs"

open Regex in
/-- `r'>\s*/dev/(sda|hda|nvme|vda)'` -/
def patDiskWrite : Regex :=
  mkCat (chr '>') (mkCat (star ws)
    (mkCat (lit "/dev/")
      (mkAlt (lit "sda") (mkAlt (lit "hda") (mkAlt (lit "nvme") (lit "vda"))))))

open Regex in
/-- `r':()\{:\|:&\};:'` — note that `()` is an empty regex group, so the
pattern matches the literal text `:{:|:&};:`. -/
def patForkBomb : Regex := mkCat (chr ':') (mkCat .eps (lit "{:|:&};:"))

open Regex in
/-- `r'chmod\s+(-R\s+)?777\s+/'` -/
def patChmod : Regex :=
  mkCat (lit "chmod") (mkCat (plus ws)
    (mkCat (opt (mkCat (lit "-r") (plus ws)))
      (mkCat (lit "777") (mkCat (plus ws) (chr '/')))))

open Regex in
/-- `r'chown\s+-R\s+.*\s+/'` -/
def patChown : Regex :=
  mkCat (lit "chown") (mkCat (plus ws)
    (mkCat (lit "-r") (mkCat (plus ws) (mkCat (star dot) (mkCat (plus ws) (chr '/'))))))

open Regex in
/-- `r'curl\s+.*\|\s*(bash|sh)'` -/
def patCurl : Regex :=
  mkCat (lit "curl") (mkCat (plus ws)
    (mkCat (star dot) (mkCat (chr '|') (mkCat (star ws) (mkAlt (lit "bash") (lit "sh"))))))

open Regex in
/-- `r'wget\s+.*\|\s*(bash|sh)'` -/
def patWget : Regex :=
  mkCat (lit "wget") (mkCat (plus ws)
    (mkCat (star dot) (mkCat (chr '|') (mkCat (star ws) (mkAlt (lit "bash") (lit "sh"))))))

open Regex in
/-- `r'sudo\s+rm'` -/
def patSudoRm : Regex := mkCat (lit "sudo") (mkCat (plus ws) (lit "rm"))

open Regex in
/-- `r'>\s*/etc/'` -/
def patEtcWrite : Regex := mkCat (chr '>') (mkCat (star ws) (lit "/etc/"))

/-- `DANGEROUS_PATTERNS` (`agent_manager.py:224-238`), in source order. -/
def DANGEROUS_PATTERNS : List (Regex × String) :=
  [ (patRmRoot, "Recursive deletion from root"),
    (patRmHome, "Recursive deletion from home"),
    (patRmRecursive, "Recursive file deletion"),
    (patDd, "Disk overwrite command"),
    (patMkfs, "Filesystem format command"),
    (patDiskWrite, "Direct disk write"),
    (patForkBomb, "Fork bomb"),
    (patChmod, "Dangerous permission change"),
    (patChown, "Recursive ownership change from root"),
    (patCurl, "Piping remote script to shell"),
    (patWget, "Piping remote script to shell"),
    (patSudoRm, "Sudo removal command"),
    (patEtcWrite, "Writing to /etc directory") ]

/-- `check_dangerous_command` (`agent_manager.py:241-253`): the reason of the
first matching pattern, `none` when no pattern matches. -/
def check_dangerous_command (command : String) : Option String :=
  (DANGEROUS_PATTERNS.find? (fun pr => reSearchCI pr.1 command)).map (·.2)

example : check_dangerous_command "rm -rf /tmp/x" = some "Recursive deletion from root" := by
  decide

example : check_dangerous_command "rm -rf foo" = some "Recursive file deletion" := by
  decide

example : check_dangerous_command "ls -la" = none := by decide

/-! ## Substring containment (Python `pattern in command`) -/

/-- `sub` occurs as a contiguous substring of `l`. -/
def listContainsSub (sub : List Char) : List Char → Bool
  | [] => sub.isPrefixOf ([] : List Char)
  | c :: rest => sub.isPrefixOf (c :: rest) || listContainsSub sub rest

/-- Python's `sub in s` on strings (case-sensitive substring test). -/
def strContains (s sub : String) : Bool := listContainsSub sub.data s.data

/-! ## Hook outcomes and the pre-tool hooks (`agent_manager.py:181-353`)

A hook returns `{}` (pass) or a `hookSpecificOutput` with
`permissionDecision = deny` and a reason. -/

inductive HookResult where
  | pass : HookResult
  | deny : String → HookResult
deriving DecidableEq, Repr

/-- `pre_tool_logger` (`agent_manager.py:181-190`): logs and always passes. -/
def pre_tool_logger (_toolName : String) : HookResult := .pass

/-- The fixed auto-block substrings of `dangerous_command_blocker`
(`agent_manager.py:202-208`), in source order. -/
def AUTO_BLOCK_PATTERNS : List String :=
  ["rm -rf /", "rm -rf ~", "dd if=/dev/zero", ":(){:|:&};:", "> /dev/sda"]

/-- `dangerous_command_blocker` (`agent_manager.py:193-220`): denies a Bash
command containing one of the fixed catastrophic substrings. -/
def dangerous_command_blocker (toolName command : String) : HookResult :=
  if toolName = "Bash" then
    match AUTO_BLOCK_PATTERNS.find? (fun p => strContains command p) with
    | some p => .deny ("Dangerous command blocked: " ++ p)
    | none => .pass
  else .pass

/-! ## Permission state (module-level maps and DB table of `agent_manager.py`)

`_approved_commands : dict[str, set[str]]` is modelled as a list of
(session key, command hash) pairs; `_permission_results` as an association
list; the `permission_requests` DB table as a list of records.  The hash
function `_hash_command` (`sha256(command)[:16]`, from `hashlib`) is kept
as an explicit function parameter `h` of the operations: nothing below
depends on its concrete value. -/

structure PermRecord where
  id : String
  session_id : Option String
  tool_name : String
  /-- The Bash command of the request; the source stores
  `json.dumps(tool_input)` and parses it back before use. -/
  command : String
  reason : String
  status : String
  decided_at : Option String := none
  user_feedback : Option String := none
deriving DecidableEq, Repr

/-- A queue item placed on `_permission_request_queue`
(`agent_manager.py:322-329`). -/
structure PermEvent where
  sessionId : Option String
  requestId : String
  toolName : String
  reason : String
deriving DecidableEq, Repr

structure PermState where
  /-- `_approved_commands`: pairs (session key, command hash). -/
  approvedCommands : List (String × String) := []
  /-- `_permission_results`: request id to decision. -/
  permissionResults : List (String × String) := []
  /-- The `permission_requests` database table. -/
  permissionRequests : List PermRecord := []
deriving DecidableEq, Repr

/-- `is_command_approved` (`agent_manager.py:58-63`). -/
def is_command_approved (h : String → String) (st : PermState)
    (sessionKey command : String) : Bool :=
  st.approvedCommands.contains (sessionKey, h command)

/-- `set_permission_decision` (`agent_manager.py:96-100`): store the decision
in `_permission_results` and wake the waiter. -/
def set_permission_decision (st : PermState) (requestId decision : String) : PermState :=
  { st with permissionResults :=
      (requestId, decision) :: st.permissionResults.filter (fun kv => kv.1 ≠ requestId) }

/-- `db.permission_requests.update(request_id, fields)`: merge the given
fields into the record with that id (no-op when the id is absent). -/
def updateRequest (st : PermState) (requestId : String)
    (f : PermRecord → PermRecord) : PermState :=
  { st with permissionRequests :=
      st.permissionRequests.map (fun r => if r.id = requestId then f r else r) }

/-- Default timeout of `wait_for_permission_decision`
(`agent_manager.py:71`): 300 seconds (5 minutes). -/
def wait_timeout_default : Nat := 300

/-- How the wait in `wait_for_permission_decision` ends: the event is
signalled within the timeout, or `asyncio.wait_for` times out. -/
inductive WaitArrival where
  | signalled : WaitArrival
  | timeout : WaitArrival
deriving DecidableEq, Repr

/-- `wait_for_permission_decision` (`agent_manager.py:71-93`): on a signalled
event return `_permission_results.get(request_id, "deny")`; on timeout mark
the DB record `expired` and return `"deny"`. -/
def wait_for_permission_decision (st : PermState) (requestId : String)
    (arrival : WaitArrival) : PermState × String :=
  match arrival with
  | .signalled => (st, ((st.permissionResults.lookup requestId).getD "deny"))
  | .timeout => (updateRequest st requestId (fun r => { r with status := "expired" }), "deny")

/-! ## The human-approval hook (`create_human_approval_hook`,
`agent_manager.py:256-353`)

The hook closure captures the shared `session_context` dict (whose
`sdk_session_id` entry is updated on the model's init event) and the fixed
`session_key` (`resume_session_id or agent_id`, `agent_manager.py:656`).
The suspension on `wait_for_permission_decision` is modelled by passing in
the decision that the wait eventually returns. -/

structure HookStep where
  result : HookResult
  state : PermState
  emitted : Option PermEvent
deriving DecidableEq, Repr

def human_approval_hook (h : String → String)
    (sdkSessionId : Option String) (sessionKey : String)
    (enableHumanApproval : Bool) (st : PermState)
    (toolName command requestId decision : String) : HookStep :=
  if toolName ≠ "Bash" then ⟨.pass, st, none⟩
  else if command = "" then ⟨.pass, st, none⟩
  else
    match check_dangerous_command command with
    | none => ⟨.pass, st, none⟩
    | some dangerReason =>
      if ¬ enableHumanApproval then
        ⟨.deny ("Dangerous command blocked: " ++ dangerReason), st, none⟩
      else if is_command_approved h st sessionKey command then
        ⟨.pass, st, none⟩
      else
        -- create the permission request (status pending, keyed by the
        -- actual SDK session id, agent_manager.py:305-319), enqueue the
        -- event, suspend on wait_for_permission_decision
        let record : PermRecord :=
          { id := requestId, session_id := sdkSessionId, tool_name := "Bash",
            command := command, reason := dangerReason, status := "pending" }
        { result := if decision = "approve" then .pass
                    else .deny ("User denied: " ++ dangerReason),
          state := { st with permissionRequests := st.permissionRequests ++ [record] },
          emitted := some ⟨sdkSessionId, requestId, "Bash", dangerReason⟩ }

/-! ## `continue_with_permission` (`agent_manager.py:1493-1590`)

Only the state-relevant steps are modelled: the lookup of the permission
request, the unconditional DB update of its status, the recording of the
approval under `permission_request["session_id"]` (with the call's
`session_id` as fallback), and `set_permission_decision`.  Environment
staging, option building and the transcript write do not affect the
claims. -/

inductive CwpOutcome where
  | errorRequestNotFound : CwpOutcome
  | acknowledged : String → String → CwpOutcome
deriving DecidableEq, Repr

def continue_with_permission (h : String → String) (st : PermState)
    (sessionId requestId decision : String) (feedback : Option String)
    (decidedAt : String) : PermState × CwpOutcome :=
  match st.permissionRequests.find? (fun r => r.id = requestId) with
  | none => (st, .errorRequestNotFound)
  | some pr =>
    let st := updateRequest st requestId (fun r =>
      { r with status := decision, decided_at := some decidedAt, user_feedback := feedback })
    let permSessionId := pr.session_id.getD sessionId
    let st :=
      if decision = "approve" then
        { st with approvedCommands := (permSessionId, h pr.command) :: st.approvedCommands }
      else st
    let st := set_permission_decision st requestId decision
    (st, .acknowledged requestId decision)

/-! ## The Bash PreToolUse hook list built by `_build_options`
(`agent_manager.py:636-669`)

Hooks registered for Bash, in order: the logger (when
`enable_tool_logging`), `dangerous_command_blocker` (when
`enable_safety_checks`), and the human-approval hook — registered **only
when** `enable_human_approval` is true, and then created with that same
flag (`agent_manager.py:660-668`).  The hook runner applies them in order;
the first non-pass outcome wins. -/

structure HookFlags where
  enable_tool_logging : Bool := true
  enable_safety_checks : Bool := true
  enable_human_approval : Bool := true
deriving DecidableEq, Repr

def bash_pretooluse_pipeline (h : String → String) (flags : HookFlags)
    (sdkSessionId : Option String) (sessionKey : String) (st : PermState)
    (command requestId decision : String) : HookStep :=
  let afterLogger : HookResult :=
    if flags.enable_tool_logging then pre_tool_logger "Bash" else .pass
  match afterLogger with
  | .deny r => ⟨.deny r, st, none⟩
  | .pass =>
    let blockerResult : HookResult :=
      if flags.enable_safety_checks then dangerous_command_blocker "Bash" command
      else .pass
    match blockerResult with
    | .deny r => ⟨.deny r, st, none⟩
    | .pass =>
      if flags.enable_human_approval then
        human_approval_hook h sdkSessionId sessionKey true st "Bash" command requestId decision
      else ⟨.pass, st, none⟩

/-! ## `os.path.normpath` (POSIX) and the file-access gate
(`create_file_access_permission_handler`, `agent_manager.py:356-464`) -/

/-- Python `str.split('/')` on the character list (keeps empty pieces). -/
def splitSlash : List Char → List (List Char)
  | [] => [[]]
  | c :: rest =>
    if c = '/' then [] :: splitSlash rest
    else
      match splitSlash rest with
      | [] => [[c]]
      | p :: ps => (c :: p) :: ps

/-- One iteration of the component loop of `posixpath.normpath`.  `acc` is
`new_comps` in reverse order. -/
def normStep (initialSlashes : Bool) (acc : List (List Char)) (comp : List Char) :
    List (List Char) :=
  if comp = [] ∨ comp = ['.'] then acc
  else if comp ≠ ['.', '.'] ∨ (¬ initialSlashes ∧ acc = []) ∨
      acc.head? = some ['.', '.'] then comp :: acc
  else
    match acc with
    | _ :: rest => rest
    | [] => []

/-- Python `'/'.join(comps)`. -/
def joinSlash : List (List Char) → List Char
  | [] => []
  | [p] => p
  | p :: ps => p ++ '/' :: joinSlash ps

/-- `posixpath.normpath` on character lists: collapse `//`, drop `.`
components, resolve `x/..` pairs, preserve a double (but not triple)
leading slash. -/
def normpathChars (path : List Char) : List Char :=
  if path = [] then ['.']
  else
    let initialSlashes : Bool := path.head? = some '/'
    let k : Nat :=
      if initialSlashes then
        if ['/', '/'].isPrefixOf path ∧ ¬ ['/', '/', '/'].isPrefixOf path then 2 else 1
      else 0
    let comps := ((splitSlash path).foldl (normStep initialSlashes) []).reverse
    let res := List.replicate k '/' ++ joinSlash comps
    if res = [] then ['.'] else res

/-- `os.path.normpath` on strings. -/
def normpath (s : String) : String := ⟨normpathChars s.data⟩

example : normpath "/workspace//a/./b/../c" = "/workspace/a/c" := by decide
example : normpath "a/../../b" = "../b" := by decide
example : normpath "" = "." := by decide
example : normpath "//x" = "//x" := by decide

/-- Python `d.rstrip('/')` on character lists. -/
def rstripSlash (s : List Char) : List Char :=
  (s.reverse.dropWhile (fun c => c = '/')).reverse

/-- The path parameter consulted for each file tool
(`agent_manager.py:378-384`). -/
def fileToolParam (toolName : String) : Option String :=
  ([("Read", "file_path"), ("Write", "file_path"), ("Edit", "file_path"),
    ("Glob", "path"), ("Grep", "path")]).lookup toolName

inductive GateDecision where
  | allow : GateDecision
  | deny : String → GateDecision
deriving DecidableEq, Repr

/-- Python `s.startswith(pre)`. -/
def pyStartswith (s pre : String) : Bool := pre.data.isPrefixOf s.data

/-- The `is_allowed` test of the gate (`agent_manager.py:400-403`):
the normalized path starts with `allowed_dir + '/'` or equals
`allowed_dir`, for some normalized allowed directory. -/
def pathIsAllowed (normalizedDirs : List String) (np : String) : Bool :=
  normalizedDirs.any (fun d => pyStartswith np (d ++ "/") || np = d)

/-- The file-tool branch of `create_file_access_permission_handler`
(`agent_manager.py:356-414` plus the final allow for non-file tools,
line 462).  The allowed directories are normalized by stripping trailing
slashes (line 366); the Bash-command branch (lines 417-459) is a separate
scan not consulted for file tools and is not modelled here.  `inputData`
models the `input_data` dict restricted to its string-valued entries. -/
def file_access_permission_handler (allowedDirectories : List String)
    (toolName : String) (inputData : List (String × String)) : GateDecision :=
  let normalizedDirs : List String :=
    allowedDirectories.map (fun d => (⟨rstripSlash d.data⟩ : String))
  match fileToolParam toolName with
  | some pathParam =>
    let filePath := (inputData.lookup pathParam).getD ""
    if filePath = "" then .allow
    else if pathIsAllowed normalizedDirs (normpath filePath) then .allow
    else .deny ("File access denied: " ++ filePath ++ " is outside allowed directories")
  | none => .allow

example :
    file_access_permission_handler ["/workspace"] "Read" [("file_path", "/workspace/a.txt")] =
      .allow := by decide
example :
    file_access_permission_handler ["/workspace"] "Read" [("file_path", "/etc/passwd")] =
      .deny "File access denied: /etc/passwd is outside allowed directories" := by decide
example :
    file_access_permission_handler ["/workspace"] "Read" [("file_path", "notes.txt")] =
      .deny "File access denied: notes.txt is outside allowed directories" := by decide

/-! ## Skill records and the version lifecycle
(`routers/skills.py:535-777`, `core/skill_manager.py`)

The skills and skill-versions database tables are lists of records; the
per-skill local mirror (`workspace/.claude/skills/{folder}/`, replaced by
`download_version_to_local`) is modelled as a map from folder name to the
version number whose content it currently holds.  S3 staging is taken in
cloud mode (`is_local_only = false`), where `skill_manager.publish_draft`
and `download_version_to_local` really copy content; staging failures
(`StagingError`) are not modelled. -/

structure Skill where
  id : String
  name : String := ""
  current_version : Nat := 0
  has_draft : Bool := false
  s3_location : Option String := none
  draft_s3_location : Option String := none
deriving DecidableEq, Repr

structure SkillVersion where
  id : String
  skill_id : String
  version : Nat
  s3_location : String
  change_summary : Option String := none
deriving DecidableEq, Repr

structure SkillsState where
  skills : List Skill := []
  skillVersions : List SkillVersion := []
  /-- folder name of the local mirror, and the version whose content it holds -/
  localMirror : List (String × Nat) := []
deriving DecidableEq, Repr

/-- The first match of `re.search(r'/skills/([^/]+)/', s)`: the first
nonempty `/`-free segment that directly follows a `/skills/` and is
followed by `/`. -/
def findSkillsSeg : List Char → Option (List Char)
  | [] => none
  | l@(_ :: rest) =>
    if ("/skills/").data.isPrefixOf l then
      let after := l.drop 8
      let seg := after.takeWhile (fun c => c ≠ '/')
      if seg ≠ [] ∧ (after.drop seg.length).head? = some '/' then some seg
      else findSkillsSeg rest
    else findSkillsSeg rest

/-- `re.sub(r'[^a-zA-Z0-9_-]', '-', name.lower())`. -/
def sanitizeName (name : String) : String :=
  ⟨name.toLower.data.map (fun c =>
    if ('a' ≤ c ∧ c ≤ 'z') ∨ ('A' ≤ c ∧ c ≤ 'Z') ∨ ('0' ≤ c ∧ c ≤ '9') ∨
        c = '_' ∨ c = '-' then c else '-')⟩

/-- `_get_skill_folder_name` (`routers/skills.py:535-544`): parse the folder
name out of `s3_location or draft_s3_location`, falling back to the
sanitized skill name (Python `or` also skips an empty string). -/
def get_skill_folder_name (skill : Skill) : String :=
  let draftLoc := skill.draft_s3_location.getD ""
  let s3loc :=
    match skill.s3_location with
    | some s => if s = "" then draftLoc else s
    | none => draftLoc
  if s3loc ≠ "" then
    match findSkillsSeg s3loc.data with
    | some seg => ⟨seg⟩
    | none => sanitizeName skill.name
  else sanitizeName skill.name

example : get_skill_folder_name { id := "s1", s3_location := some "s3://b/skills/pptx/v2/" } = "pptx" := by decide

/-- The S3 location returned by `skill_manager.publish_draft`
(`core/skill_manager.py:452-482`): `s3://{bucket}/skills/{name}/v{n}/`. -/
def versionLocation (bucket folder : String) (v : Nat) : String :=
  "s3://" ++ bucket ++ "/skills/" ++ folder ++ "/v" ++ toString v ++ "/"

/-- Replace the local mirror of `folder` with the content of version `v`
(`skill_manager.download_version_to_local`). -/
def setMirror (m : List (String × Nat)) (folder : String) (v : Nat) : List (String × Nat) :=
  (folder, v) :: m.filter (fun e => e.1 ≠ folder)

inductive SkillApiError where
  | skillNotFound : SkillApiError
  | noDraft : SkillApiError
  | versionNotFound : SkillApiError
deriving DecidableEq, Repr

/-- `publish_skill_draft` (`routers/skills.py:612-675`): requires an existing
skill with a draft; copies the draft to version `current_version + 1`,
creates the version record (`db.skill_versions.put` inserts a fresh row,
id `newRecordId`), updates the skill record, and downloads the new version
to the local mirror. -/
def publish_skill_draft (st : SkillsState) (bucket skillId : String)
    (changeSummary : Option String) (newRecordId : String) :
    Except SkillApiError (SkillsState × Skill) :=
  match st.skills.find? (fun s => s.id = skillId) with
  | none => .error .skillNotFound
  | some skill =>
    if ¬ skill.has_draft then .error .noDraft
    else
      let folder := get_skill_folder_name skill
      let newVersion := skill.current_version + 1
      let loc := versionLocation bucket folder newVersion
      let versionRecord : SkillVersion :=
        { id := newRecordId, skill_id := skillId, version := newVersion,
          s3_location := loc, change_summary := changeSummary }
      let updatedSkill : Skill :=
        { skill with
          current_version := newVersion, s3_location := some loc,
          has_draft := false, draft_s3_location := none }
      .ok ({ skills := st.skills.map (fun s => if s.id = skillId then updatedSkill else s),
             skillVersions := st.skillVersions ++ [versionRecord],
             localMirror := setMirror st.localMirror folder newVersion },
           updatedSkill)

/-- `db.skill_versions.get_by_skill_and_version` (`database/sqlite.py:225-234`). -/
def get_by_skill_and_version (versions : List SkillVersion) (skillId : String)
    (version : Nat) : Option SkillVersion :=
  versions.find? (fun r => r.skill_id = skillId ∧ r.version = version)

/-- `rollback_skill_version` (`routers/skills.py:723-777`): requires the
target version to exist; discards any draft, points the skill record at
the target version, and downloads that version to the local mirror. -/
def rollback_skill_version (st : SkillsState) (skillId : String) (targetVersion : Nat) :
    Except SkillApiError (SkillsState × Skill) :=
  match st.skills.find? (fun s => s.id = skillId) with
  | none => .error .skillNotFound
  | some skill =>
    match get_by_skill_and_version st.skillVersions skillId targetVersion with
    | none => .error .versionNotFound
    | some versionRecord =>
      let folder := get_skill_folder_name skill
      let updatedSkill : Skill :=
        { skill with
          current_version := targetVersion,
          s3_location := some versionRecord.s3_location,
          has_draft := false, draft_s3_location := none }
      .ok ({ skills := st.skills.map (fun s => if s.id = skillId then updatedSkill else s),
             skillVersions := st.skillVersions,
             localMirror := setMirror st.localMirror folder targetVersion },
           updatedSkill)

/-! ## Agent CRUD (`routers/agents.py:100-195`) -/

structure AgentRecord where
  id : String
  name : String
  skill_ids : List String := []
  allow_all_skills : Bool := false
  global_user_mode : Bool := true
  enable_human_approval : Bool := true
  status : String := "active"
deriving DecidableEq, Repr

/-- `AgentCreateRequest` (`schemas/agent.py:103-124`), restricted to the
fields the claims touch (defaults as declared there). -/
structure AgentCreateRequest where
  name : String
  skill_ids : List String := []
  allow_all_skills : Bool := false
  global_user_mode : Bool := true
  enable_human_approval : Bool := true
deriving DecidableEq, Repr

/-- `create_agent` (`routers/agents.py:100-151`): when `global_user_mode` is
set, force `allow_all_skills = true` and clear `skill_ids`, then store the
record (`db.agents.put` assigns `newId`). -/
def create_agent (agents : List AgentRecord) (req : AgentCreateRequest)
    (newId : String) : List AgentRecord × AgentRecord :=
  let globalUserMode := req.global_user_mode
  let allowAllSkills := if globalUserMode then true else req.allow_all_skills
  let skillIds := if globalUserMode then [] else req.skill_ids
  let agent : AgentRecord :=
    { id := newId, name := req.name, skill_ids := skillIds,
      allow_all_skills := allowAllSkills, global_user_mode := globalUserMode,
      enable_human_approval := req.enable_human_approval, status := "active" }
  (agents ++ [agent], agent)

/-- `db.agents.get` (`database/sqlite.py:98-107`). -/
def get_agent (agents : List AgentRecord) (agentId : String) : Option AgentRecord :=
  agents.find? (fun a => a.id = agentId)

/-- `AgentUpdateRequest` (`schemas/agent.py:127-151`) restricted to the
fields the claims touch; `none` models a field absent from
`model_dump(exclude_unset=True)`. -/
structure AgentUpdateRequest where
  name : Option String := none
  skill_ids : Option (List String) := none
  allow_all_skills : Option Bool := none
  global_user_mode : Option Bool := none
  enable_human_approval : Option Bool := none
deriving DecidableEq, Repr

/-- `update_agent` (`routers/agents.py:154-195`): compute the effective
`global_user_mode` from the updates or the existing record; when true,
force `allow_all_skills = true` and `skill_ids = []` into the updates;
then merge the updates into the stored record (`db.agents.update`). -/
def update_agent (agents : List AgentRecord) (agentId : String)
    (req : AgentUpdateRequest) : Option (List AgentRecord × AgentRecord) :=
  match get_agent agents agentId with
  | none => none
  | some existing =>
    let globalUserMode := req.global_user_mode.getD existing.global_user_mode
    let updates :=
      if globalUserMode then
        { req with allow_all_skills := some true, skill_ids := some ([] : List String) }
      else req
    let agent : AgentRecord :=
      { existing with
        name := updates.name.getD existing.name,
        skill_ids := updates.skill_ids.getD existing.skill_ids,
        allow_all_skills := updates.allow_all_skills.getD existing.allow_all_skills,
        global_user_mode := updates.global_user_mode.getD existing.global_user_mode,
        enable_human_approval :=
          updates.enable_human_approval.getD existing.enable_human_approval }
    some (agents.map (fun a => if a.id = agentId then agent else a), agent)

/-! ## Skill directory scans (`core/workspace_manager.py:138-167`,
`core/skill_manager.py:81-96`)

A directory listing is a list of entries; `hasSkillMd` records whether the
entry's directory contains a `SKILL.md` file. -/

structure DirEntry where
  name : String
  isDir : Bool
  hasSkillMd : Bool
deriving DecidableEq, Repr

/-- The per-entry condition both scans apply: a directory, not hidden
(leading `.`), containing `SKILL.md`. -/
def skillDirFilter (e : DirEntry) : Bool :=
  e.isDir && !(pyStartswith e.name ".") && e.hasSkillMd

/-- `get_all_skill_names` (`workspace_manager.py:138-167`): union over
`~/.claude/skills/` and `workspace/.claude/skills/` of the names passing
the filter (the Python `set` is modelled as a deduplicated list). -/
def get_all_skill_names (homeEntries wsEntries : List DirEntry) : List String :=
  (((homeEntries.filter skillDirFilter).map (fun e => e.name)) ++
    ((wsEntries.filter skillDirFilter).map (fun e => e.name))).dedup

/-- The keys of the dict returned by `scan_local_skills`
(`skill_manager.py:81-96`). -/
def scan_local_skills (entries : List DirEntry) : List String :=
  (entries.filter skillDirFilter).map (fun e => e.name)

/-! ## Helper lemmas -/

theorem splitSlash_ne_nil (l : List Char) : splitSlash l ≠ [] := by
  cases l with
  | nil => simp [splitSlash]
  | cons c rest =>
    simp only [splitSlash]
    split
    · simp
    · split <;> simp

theorem splitSlash_no_slash (l : List Char) : ∀ p ∈ splitSlash l, '/' ∉ p := by
  induction l with
  | nil => intro p hp; simp [splitSlash] at hp; simp [hp]
  | cons c rest ih =>
    intro p hp
    simp only [splitSlash] at hp
    by_cases hc : c = '/'
    · rw [if_pos hc] at hp
      rcases List.mem_cons.mp hp with h | h
      · simp [h]
      · exact ih p h
    · rw [if_neg hc] at hp
      rcases hrest : splitSlash rest with _ | ⟨q, qs⟩
      · exact absurd hrest (splitSlash_ne_nil rest)
      · rw [hrest] at hp
        rcases List.mem_cons.mp hp with h | h
        · subst h
          intro hmem
          rcases List.mem_cons.mp hmem with h' | h'
          · exact hc h'.symm
          · exact ih q (hrest ▸ List.mem_cons_self q qs) h'
        · exact ih p (hrest ▸ List.mem_cons_of_mem q h)

/-- The invariant preserved by the component loop of `normpath`: every
accumulated component is nonempty and slash-free. -/
def goodComps (acc : List (List Char)) : Prop :=
  ∀ p ∈ acc, p ≠ [] ∧ '/' ∉ p

theorem normStep_good {init : Bool} {acc : List (List Char)} {comp : List Char}
    (hacc : goodComps acc) (hcomp : '/' ∉ comp) :
    goodComps (normStep init acc comp) := by
  unfold normStep
  split
  · exact hacc
  · rename_i hne
    split
    · intro p hp
      rcases List.mem_cons.mp hp with h | h
      · subst h
        refine ⟨?_, hcomp⟩
        intro hnil
        exact hne (Or.inl hnil)
      · exact hacc p h
    · cases acc with
      | nil => intro p hp; simp at hp
      | cons a t => exact fun p hp => hacc p (List.mem_cons_of_mem a hp)

theorem foldl_normStep_good (init : Bool) (comps : List (List Char))
    (acc : List (List Char)) (hacc : goodComps acc)
    (hcomps : ∀ p ∈ comps, '/' ∉ p) :
    goodComps (comps.foldl (normStep init) acc) := by
  induction comps generalizing acc with
  | nil => exact hacc
  | cons c t ih =>
    simp only [List.foldl_cons]
    exact ih _ (normStep_good hacc (hcomps c (List.mem_cons_self c t)))
      (fun p hp => hcomps p (List.mem_cons_of_mem c hp))

theorem joinSlash_head (comps : List (List Char)) (h : goodComps comps) :
    joinSlash comps = [] ∨ (joinSlash comps).head? ≠ some '/' := by
  cases comps with
  | nil => exact Or.inl rfl
  | cons p ps =>
    right
    have hp := h p (List.mem_cons_self p ps)
    cases hpc : p with
    | nil => exact absurd hpc hp.1
    | cons a t =>
      have ha : a ≠ '/' := by
        intro haeq
        exact hp.2 (hpc ▸ haeq ▸ List.mem_cons_self a t)
      cases ps with
      | nil =>
        simp only [joinSlash, hpc, List.head?_cons]
        intro hcontra
        exact ha (Option.some.inj hcontra)
      | cons q qs =>
        simp only [joinSlash, hpc, List.cons_append, List.head?_cons]
        intro hcontra
        exact ha (Option.some.inj hcontra)

theorem ite_nil_dot (res : List Char) : (if res = [] then ['.'] else res) ≠ [] := by
  split
  · simp
  · assumption

theorem normpathChars_ne_nil (l : List Char) : normpathChars l ≠ [] := by
  unfold normpathChars
  split
  · simp
  · exact ite_nil_dot _

theorem normpathChars_relative (l : List Char) (h : l.head? ≠ some '/') :
    (normpathChars l).head? ≠ some '/' := by
  have hgood : goodComps (((splitSlash l).foldl (normStep false) []).reverse) := by
    intro p hp
    rw [List.mem_reverse] at hp
    exact foldl_normStep_good false (splitSlash l) []
      (by intro q hq; simp at hq) (splitSlash_no_slash l) p hp
  have hinit : decide (l.head? = some '/') = false := decide_eq_false h
  unfold normpathChars
  split
  · simp
  · simp only [hinit, Bool.false_eq_true, if_false, List.replicate, List.nil_append]
    rcases joinSlash_head _ hgood with hj | hj
    · rw [hj]
      simp
    · split
      · simp
      · exact hj

theorem rstripSlash_prefix (s : List Char) : rstripSlash s <+: s := by
  unfold rstripSlash
  have hsuf : s.reverse.dropWhile (fun c => c = '/') <:+ s.reverse :=
    List.dropWhile_suffix _
  have hpre : (s.reverse.dropWhile (fun c => c = '/')).reverse <+: s.reverse.reverse :=
    List.reverse_prefix.mpr hsuf
  rwa [List.reverse_reverse] at hpre

theorem rstripSlash_head (s : List Char) (hs : s.head? = some '/') :
    rstripSlash s = [] ∨ (rstripSlash s).head? = some '/' := by
  cases hr : rstripSlash s with
  | nil => exact Or.inl rfl
  | cons a t =>
    right
    obtain ⟨u, hu⟩ := rstripSlash_prefix s
    rw [hr] at hu
    rw [← hu] at hs
    simp only [List.cons_append, List.head?_cons, Option.some.injEq] at hs
    simp [hs]

theorem string_data_append (a b : String) : (a ++ b).data = a.data ++ b.data := rfl

/-- `find?` through replacement of every matching element by a fixed
record that still matches: the found element becomes the replacement. -/
theorem find?_map_const_update {α : Type} (p : α → Prop) [DecidablePred p] (u : α)
    (hu : p u) :
    ∀ (l : List α) (x : α), l.find? (fun a => p a) = some x →
      (l.map (fun a => if p a then u else a)).find? (fun a => p a) = some u := by
  intro l
  induction l with
  | nil => intro x hx; simp at hx
  | cons a t ih =>
    intro x hx
    by_cases hpa : p a
    · simp only [List.map_cons, if_pos hpa]
      rw [List.find?_cons_of_pos _ (by simpa using hu)]
    · rw [List.find?_cons_of_neg _ (by simpa using hpa)] at hx
      simp only [List.map_cons, if_neg hpa]
      rw [List.find?_cons_of_neg _ (by simpa using hpa)]
      exact ih x hx

/-- `find?` through a pointwise update of the matching elements, for an
update that preserves the predicate. -/
theorem find?_map_update {α : Type} (p : α → Prop) [DecidablePred p] (f : α → α)
    (hpres : ∀ a, p (f a) ↔ p a) :
    ∀ (l : List α) (x : α), l.find? (fun a => p a) = some x →
      (l.map (fun a => if p a then f a else a)).find? (fun a => p a) = some (f x) := by
  intro l
  induction l with
  | nil => intro x hx; simp at hx
  | cons a t ih =>
    intro x hx
    by_cases hpa : p a
    · rw [List.find?_cons_of_pos _ (by simpa using hpa)] at hx
      injection hx with hx
      subst hx
      simp only [List.map_cons, if_pos hpa]
      rw [List.find?_cons_of_pos _ (by simpa using (hpres a).mpr hpa)]
    · rw [List.find?_cons_of_neg _ (by simpa using hpa)] at hx
      simp only [List.map_cons, if_neg hpa]
      rw [List.find?_cons_of_neg _ (by simpa using hpa)]
      exact ih x hx

theorem find?_append_fresh {α : Type} (p : α → Prop) [DecidablePred p]
    (l : List α) (x : α) (hl : ∀ a ∈ l, ¬ p a) (hx : p x) :
    (l ++ [x]).find? (fun a => p a) = some x := by
  induction l with
  | nil =>
    simp only [List.nil_append]
    rw [List.find?_cons_of_pos _ (by simpa using hx)]
  | cons a t ih =>
    have ha : ¬ p a := hl a (List.mem_cons_self a t)
    simp only [List.cons_append]
    rw [List.find?_cons_of_neg _ (by simpa using ha)]
    exact ih (fun b hb => hl b (List.mem_cons_of_mem a hb))

/-! ## Claims -/

/-- **C1** (code bug as stated).  For a dangerous Bash command approved via
`continue_with_permission`, the approval is recorded under the session id
stored in the permission request (the model-assigned SDK session id,
`agent_manager.py:310` and `:1559-1566`), while the `HumanApprovalGate`
consults `session_key` (the resume-session-id or agent-id,
`agent_manager.py:297,656`).  In a new session these keys differ, so the
recorded approval is invisible to the gate and a second identical
dangerous command creates a new permission request — for any hash
function `h` standing in for `_hash_command`. -/
theorem C1_session_key_mismatch (h : String → String) :
    ((continue_with_permission h
        (human_approval_hook h (some "sess-xyz") "agent-1" true {} "Bash" "rm -rf foo"
          "perm_1" "approve").state
        "sess-xyz" "perm_1" "approve" none "t1").1.approvedCommands
      = [("sess-xyz", h "rm -rf foo")]) ∧
    (is_command_approved h
        (continue_with_permission h
          (human_approval_hook h (some "sess-xyz") "agent-1" true {} "Bash" "rm -rf foo"
            "perm_1" "approve").state
          "sess-xyz" "perm_1" "approve" none "t1").1
        "agent-1" "rm -rf foo" = false) ∧
    ((human_approval_hook h (some "sess-xyz") "agent-1" true
        (continue_with_permission h
          (human_approval_hook h (some "sess-xyz") "agent-1" true {} "Bash" "rm -rf foo"
            "perm_1" "approve").state
          "sess-xyz" "perm_1" "approve" none "t1").1
        "Bash" "rm -rf foo" "perm_2" "approve").emitted
      = some ⟨some "sess-xyz", "perm_2", "Bash", "Recursive file deletion"⟩) := by
  refine ⟨rfl, ?_, ?_⟩ <;> rfl

/-- **C2** (counterexample).  With human approval disabled, the broadly
dangerous command `rm -rf foo` (classified "Recursive file deletion") is
*not* denied: the approval hook is not registered at all
(`agent_manager.py:660-668`), and the auto-blocker's fixed substrings do
not cover it, so the Bash pre-tool pipeline passes it. -/
theorem C2_counterexample :
    check_dangerous_command "rm -rf foo" = some "Recursive file deletion" ∧
    (bash_pretooluse_pipeline (fun s => s) { enable_human_approval := false }
        none "agent-1" {} "rm -rf foo" "perm_1" "deny").result = HookResult.pass := by
  decide

/-- **C2** (amended).  When `enable_human_approval = false`, the
human-approval gate is absent from the pipeline, which therefore reduces
to the auto-blocker: the outcome is exactly the blocker's (deny only on
the fixed catastrophic substrings), no state change, no permission event. -/
theorem C2_approval_disabled_no_gate (h : String → String) (flags : HookFlags)
    (sdkSessionId : Option String) (sessionKey : String) (st : PermState)
    (command requestId decision : String)
    (hdisabled : flags.enable_human_approval = false) :
    bash_pretooluse_pipeline h flags sdkSessionId sessionKey st command requestId decision
      = ⟨(if flags.enable_safety_checks then dangerous_command_blocker "Bash" command
          else .pass), st, none⟩ ∧
    (dangerous_command_blocker "Bash" command = HookResult.pass ↔
      ∀ p ∈ AUTO_BLOCK_PATTERNS, strContains command p = false) := by
  constructor
  · unfold bash_pretooluse_pipeline pre_tool_logger
    simp only [hdisabled, Bool.false_eq_true, if_false]
    cases hb : (if flags.enable_safety_checks then dangerous_command_blocker "Bash" command
        else HookResult.pass) with
    | pass => simp [hb]
    | deny r => simp [hb]
  · unfold dangerous_command_blocker
    simp only [if_pos rfl]
    cases hf : AUTO_BLOCK_PATTERNS.find? (fun p => strContains command p) with
    | none =>
      simp only [List.find?_eq_none] at hf
      constructor
      · intro _ p hp
        simpa using hf p hp
      · intro _
        rfl
    | some q =>
      have hq := List.find?_some hf
      have hqmem := List.mem_of_find?_eq_some hf
      constructor
      · intro hcontra
        cases hcontra
      · intro hall
        have := hall q hqmem
        rw [this] at hq
        cases hq

/-- **C2** witness: the amended theorem at a concrete instance (approval
disabled, safety checks on, command `rm -rf foo`). -/
theorem C2_witness :
    bash_pretooluse_pipeline (fun s => s) { enable_human_approval := false }
        none "agent-1" {} "rm -rf foo" "perm_1" "deny"
      = ⟨(if ({ enable_human_approval := false : HookFlags }).enable_safety_checks then
            dangerous_command_blocker "Bash" "rm -rf foo" else .pass), {}, none⟩ :=
  (C2_approval_disabled_no_gate (fun s => s) { enable_human_approval := false }
    none "agent-1" {} "rm -rf foo" "perm_1" "deny" rfl).1

/-- **C3** (counterexample).  For `rm -rf /tmp/x` the classifier's first
matching pattern is `rm\s+(-[rfRf]+\s+)?/`, so the reason is "Recursive
deletion from root", not "Recursive file deletion". -/
theorem C3_counterexample :
    check_dangerous_command "rm -rf /tmp/x" ≠ some "Recursive file deletion" ∧
    check_dangerous_command "rm -rf /tmp/x" = some "Recursive deletion from root" := by
  decide

/-- **C3** (amended).  For `rm -rf /tmp/x` the classifier returns
"Recursive deletion from root", and that reason is carried both in the
permission-request event the human-approval hook enqueues and in the
persisted request record (for any hash function, SDK session id, session
key, request id and eventual decision; fresh approval state). -/
theorem C3_reason_carried (h : String → String) (sdkSessionId : Option String)
    (sessionKey requestId decision : String) :
    check_dangerous_command "rm -rf /tmp/x" = some "Recursive deletion from root" ∧
    (human_approval_hook h sdkSessionId sessionKey true {} "Bash" "rm -rf /tmp/x"
        requestId decision).emitted
      = some ⟨sdkSessionId, requestId, "Bash", "Recursive deletion from root"⟩ ∧
    (human_approval_hook h sdkSessionId sessionKey true {} "Bash" "rm -rf /tmp/x"
        requestId decision).state.permissionRequests
      = [{ id := requestId, session_id := sdkSessionId, tool_name := "Bash",
           command := "rm -rf /tmp/x", reason := "Recursive deletion from root",
           status := "pending" }] := by
  refine ⟨rfl, ?_, ?_⟩ <;> rfl

theorem head?_append_left {α : Type} (l₁ l₂ : List α) (h : l₁ ≠ []) :
    (l₁ ++ l₂).head? = l₁.head? := by
  cases l₁ with
  | nil => exact absurd rfl h
  | cons a t => simp

/-- With only absolute allowed directories, no nonempty relative path ever
passes the gate's `is_allowed` test. -/
theorem pathIsAllowed_relative_false (allowed : List String) (p : String)
    (hrel : p.data.head? ≠ some '/')
    (hdirs : ∀ d ∈ allowed, d.data.head? = some '/') :
    pathIsAllowed (allowed.map (fun d => (⟨rstripSlash d.data⟩ : String)))
      (normpath p) = false := by
  have hnphead : (normpath p).data.head? ≠ some '/' := normpathChars_relative p.data hrel
  have hnpne : (normpath p).data ≠ [] := normpathChars_ne_nil p.data
  rw [pathIsAllowed, List.any_eq_false]
  intro d' hd'
  obtain ⟨d, hd, rfl⟩ := List.mem_map.mp hd'
  simp only [Bool.or_eq_true, not_or, decide_eq_true_eq]
  constructor
  · intro hpre
    have hpre' : ((⟨rstripSlash d.data⟩ : String) ++ "/").data <+: (normpath p).data :=
      List.isPrefixOf_iff_prefix.mp (by simpa [pyStartswith] using hpre)
    have hdata : ((⟨rstripSlash d.data⟩ : String) ++ "/").data
        = rstripSlash d.data ++ ['/'] := rfl
    rw [hdata] at hpre'
    obtain ⟨t, ht⟩ := hpre'
    rcases rstripSlash_head d.data (hdirs d hd) with hnil | hhd
    · rw [hnil] at ht
      simp only [List.nil_append] at ht
      apply hnphead
      rw [← ht]
      simp
    · cases hrc : rstripSlash d.data with
      | nil =>
        rw [hrc] at hhd
        simp at hhd
      | cons a u =>
        rw [hrc] at ht
        rw [hrc] at hhd
        simp only [List.head?_cons, Option.some.injEq] at hhd
        apply hnphead
        rw [← ht]
        simp [hhd]
  · intro heq
    have hdata : (normpath p).data = rstripSlash d.data := congrArg String.data heq
    rcases rstripSlash_head d.data (hdirs d hd) with hnil | hhd
    · rw [hnil] at hdata
      exact hnpne hdata
    · rw [hdata] at hnphead
      exact hnphead hhd

/-- **C4** (counterexample).  A relative path is *denied* by the file-tool
gate (the claim says it is allowed): `Read` of `notes.txt` with allowed
directory `/workspace` is rejected. -/
theorem C4_counterexample :
    file_access_permission_handler ["/workspace"] "Read" [("file_path", "notes.txt")]
      ≠ GateDecision.allow := by
  decide

/-- **C4** (amended).  For a file tool with only absolute allowed
directories: a nonempty relative path argument is denied (its normalized
form never matches an absolute directory), and a path is allowed iff it
is empty or its normalized form equals a trailing-slash-stripped allowed
directory or lies beneath one (prefix with a separator). -/
theorem C4_relative_paths_denied (allowed : List String) (tool pathParam : String)
    (input : List (String × String)) (p : String)
    (hdirs : ∀ d ∈ allowed, d.data.head? = some '/')
    (htool : fileToolParam tool = some pathParam)
    (hpath : (input.lookup pathParam).getD "" = p) :
    (p ≠ "" → p.data.head? ≠ some '/' →
      file_access_permission_handler allowed tool input =
        .deny ("File access denied: " ++ p ++ " is outside allowed directories")) ∧
    (file_access_permission_handler allowed tool input = .allow ↔
      (p = "" ∨ pathIsAllowed (allowed.map (fun d => (⟨rstripSlash d.data⟩ : String)))
        (normpath p) = true)) := by
  constructor
  · intro hne hrel
    have hfalse := pathIsAllowed_relative_false allowed p hrel hdirs
    simp only [file_access_permission_handler, htool, hpath, if_neg hne, hfalse,
      Bool.false_eq_true, if_false]
  · by_cases hp0 : p = ""
    · simp [file_access_permission_handler, htool, hpath, hp0]
    · simp only [file_access_permission_handler, htool, hpath, if_neg hp0]
      cases hPA : pathIsAllowed (allowed.map (fun d => (⟨rstripSlash d.data⟩ : String)))
          (normpath p) with
      | true => simp [hp0]
      | false => simp [hp0]

/-- **C4** witness: the amended theorem applied to `Read notes.txt` with
allowed directory `/workspace`. -/
theorem C4_witness :
    file_access_permission_handler ["/workspace"] "Read" [("file_path", "notes.txt")]
      = .deny ("File access denied: " ++ "notes.txt" ++ " is outside allowed directories") :=
  (C4_relative_paths_denied ["/workspace"] "Read" "file_path"
    [("file_path", "notes.txt")] "notes.txt" (by decide) rfl rfl).1
    (by decide) (by decide)

/-- `continue_with_permission` updates the stored permission requests by
unconditionally overwriting the found record's status, decided_at and
user_feedback; the other state fields do not touch the table. -/
theorem cwp_requests (h : String → String) (st : PermState)
    (sid rid d t : String) (f : Option String) (pr : PermRecord)
    (hfind : st.permissionRequests.find? (fun r => r.id = rid) = some pr) :
    ((continue_with_permission h st sid rid d f t).1).permissionRequests =
      st.permissionRequests.map (fun r => if r.id = rid then
        { r with status := d, decided_at := some t, user_feedback := f } else r) := by
  unfold continue_with_permission
  simp only [hfind]
  split <;> rfl

/-- A concrete pending permission request, for the C5 scenarios. -/
def samplePermRecord : PermRecord where
  id := "r1"
  session_id := some "s1"
  tool_name := "Bash"
  command := "rm -rf foo"
  reason := "Recursive file deletion"
  status := "pending"

/-- A permission-broker state holding exactly [[samplePermRecord]]. -/
def samplePermState : PermState where
  permissionRequests := [samplePermRecord]

/-- **C5** (counterexample).  Resolving an already-resolved request is not a
no-op: a second `continue_with_permission` with the opposite decision
overwrites the stored terminal state, and a request already marked
`expired` by the timeout path is likewise overwritten by a later resolve. -/
theorem C5_counterexample :
    (((continue_with_permission (fun s => s)
        (continue_with_permission (fun s => s) samplePermState
          "s1" "r1" "approve" none "t1").1
        "s1" "r1" "deny" (some "no") "t2").1).permissionRequests.find?
          (fun r => r.id = "r1")).map PermRecord.status = some "deny" ∧
    (((continue_with_permission (fun s => s)
        (wait_for_permission_decision samplePermState "r1" .timeout).1
        "s1" "r1" "approve" none "t3").1).permissionRequests.find?
          (fun r => r.id = "r1")).map PermRecord.status = some "approve" := by
  decide

/-- **C5** (amended).  A permission request starts `pending` and is moved by
`continue_with_permission` to the decision string verbatim
(`approve`/`deny`) with `decided_at` and feedback set — but the write is
unconditional: resolving again (with any decision, also after expiry)
overwrites the stored record, last writer wins, rather than being a
no-op. -/
theorem C5_resolve_overwrites (h : String → String) (st : PermState)
    (sid rid d₁ d₂ t₁ t₂ : String) (f₁ f₂ : Option String) (pr : PermRecord)
    (hfind : st.permissionRequests.find? (fun r => r.id = rid) = some pr) :
    ((continue_with_permission h st sid rid d₁ f₁ t₁).1).permissionRequests.find?
        (fun r => r.id = rid)
      = some { pr with status := d₁, decided_at := some t₁, user_feedback := f₁ } ∧
    ((continue_with_permission h
        (continue_with_permission h st sid rid d₁ f₁ t₁).1
        sid rid d₂ f₂ t₂).1).permissionRequests.find? (fun r => r.id = rid)
      = some { pr with status := d₂, decided_at := some t₂, user_feedback := f₂ } := by
  have h1 : ((continue_with_permission h st sid rid d₁ f₁ t₁).1).permissionRequests.find?
      (fun r => r.id = rid)
      = some { pr with status := d₁, decided_at := some t₁, user_feedback := f₁ } := by
    rw [cwp_requests h st sid rid d₁ t₁ f₁ pr hfind]
    exact find?_map_update (fun r => r.id = rid)
      (fun r => { r with status := d₁, decided_at := some t₁, user_feedback := f₁ })
      (fun a => Iff.rfl) st.permissionRequests pr hfind
  refine ⟨h1, ?_⟩
  rw [cwp_requests h _ sid rid d₂ t₂ f₂ _ h1]
  have h2 := find?_map_update (fun r => r.id = rid)
    (fun r => { r with status := d₂, decided_at := some t₂, user_feedback := f₂ })
    (fun a => Iff.rfl)
    ((continue_with_permission h st sid rid d₁ f₁ t₁).1).permissionRequests _ h1
  simpa using h2

/-- **C5** witness: the amended theorem at a concrete pending request
resolved `approve` and then `deny`. -/
theorem C5_witness :
    ((continue_with_permission (fun s => s) samplePermState
        "s1" "r1" "approve" none "t1").1).permissionRequests.find?
          (fun r => r.id = "r1")
      = some { samplePermRecord with
               status := "approve", decided_at := some "t1", user_feedback := none } ∧
    ((continue_with_permission (fun s => s)
        (continue_with_permission (fun s => s) samplePermState
          "s1" "r1" "approve" none "t1").1
        "s1" "r1" "deny" (some "no") "t2").1).permissionRequests.find?
          (fun r => r.id = "r1")
      = some { samplePermRecord with
               status := "deny", decided_at := some "t2", user_feedback := some "no" } :=
  C5_resolve_overwrites (fun s => s) samplePermState
    "s1" "r1" "approve" "deny" "t1" "t2" none (some "no")
    samplePermRecord (by decide)

/-- **C6** (confirmed).  When no decision arrives within the timeout
(default `wait_timeout_default = 300` seconds), `wait_for_permission_decision`
marks the persisted request record `expired` and returns `deny` to the
suspended hook. -/
theorem C6_timeout_expires (st : PermState) (rid : String) :
    (wait_for_permission_decision st rid .timeout).2 = "deny" ∧
    (wait_for_permission_decision st rid .timeout).1.permissionRequests
      = st.permissionRequests.map (fun r => if r.id = rid then
          { r with status := "expired" } else r) ∧
    wait_timeout_default = 300 :=
  ⟨rfl, rfl, rfl⟩

/-- **C7** (confirmed).  Publishing a draft of a skill at version `n`
succeeds when `has_draft`, leaving the record at `current_version = n + 1`
with `has_draft = false` and appending exactly one new version record
numbered `n + 1`; without a draft it fails with the no-draft error and
nothing is written. -/
theorem C7_publish_draft (st : SkillsState) (bucket skillId newId : String)
    (summary : Option String) (skill : Skill)
    (hfind : st.skills.find? (fun s => s.id = skillId) = some skill) :
    (skill.has_draft = true →
      ∃ st' updated, publish_skill_draft st bucket skillId summary newId = .ok (st', updated) ∧
        updated.current_version = skill.current_version + 1 ∧
        updated.has_draft = false ∧
        st'.skills.find? (fun s => s.id = skillId) = some updated ∧
        st'.skillVersions = st.skillVersions ++
          [{ id := newId, skill_id := skillId, version := skill.current_version + 1,
             s3_location := versionLocation bucket (get_skill_folder_name skill)
               (skill.current_version + 1),
             change_summary := summary }]) ∧
    (skill.has_draft = false →
      publish_skill_draft st bucket skillId summary newId = .error .noDraft) := by
  have hid : skill.id = skillId := by simpa using List.find?_some hfind
  constructor
  · intro hdraft
    have hok : publish_skill_draft st bucket skillId summary newId = .ok
        ({ skills := st.skills.map (fun s => if s.id = skillId then
              { skill with
                current_version := skill.current_version + 1,
                s3_location := some (versionLocation bucket (get_skill_folder_name skill)
                  (skill.current_version + 1)),
                has_draft := false, draft_s3_location := none } else s),
           skillVersions := st.skillVersions ++
             [{ id := newId, skill_id := skillId, version := skill.current_version + 1,
                s3_location := versionLocation bucket (get_skill_folder_name skill)
                  (skill.current_version + 1),
                change_summary := summary }],
           localMirror := setMirror st.localMirror (get_skill_folder_name skill)
             (skill.current_version + 1) },
         { skill with
           current_version := skill.current_version + 1,
           s3_location := some (versionLocation bucket (get_skill_folder_name skill)
             (skill.current_version + 1)),
           has_draft := false, draft_s3_location := none }) := by
      unfold publish_skill_draft
      simp only [hfind]
      rw [if_neg (by simp [hdraft])]
    refine ⟨_, _, hok, rfl, rfl, ?_, rfl⟩
    exact find?_map_const_update (fun s => s.id = skillId)
      { skill with
        current_version := skill.current_version + 1,
        s3_location := some (versionLocation bucket (get_skill_folder_name skill)
          (skill.current_version + 1)),
        has_draft := false, draft_s3_location := none }
      hid st.skills skill hfind
  · intro hnodraft
    unfold publish_skill_draft
    simp only [hfind]
    rw [if_pos (by simp [hnodraft])]

/-- **C8** (confirmed).  Rolling a skill back to an existing version `v`
leaves the record at `current_version = v` with `has_draft = false` (any
draft discarded) and the local mirror holding version `v`'s content; when
version `v` does not exist the call fails with the version-not-found
error and nothing is written. -/
theorem C8_rollback (st : SkillsState) (skillId : String) (v : Nat) (skill : Skill)
    (hfind : st.skills.find? (fun s => s.id = skillId) = some skill) :
    (∀ vr, get_by_skill_and_version st.skillVersions skillId v = some vr →
      ∃ st' updated, rollback_skill_version st skillId v = .ok (st', updated) ∧
        updated.current_version = v ∧
        updated.has_draft = false ∧
        updated.s3_location = some vr.s3_location ∧
        st'.skills.find? (fun s => s.id = skillId) = some updated ∧
        st'.localMirror.lookup (get_skill_folder_name skill) = some v) ∧
    (get_by_skill_and_version st.skillVersions skillId v = none →
      rollback_skill_version st skillId v = .error .versionNotFound) := by
  have hid : skill.id = skillId := by simpa using List.find?_some hfind
  constructor
  · intro vr hvr
    have hok : rollback_skill_version st skillId v = .ok
        ({ skills := st.skills.map (fun s => if s.id = skillId then
              { skill with
                current_version := v,
                s3_location := some vr.s3_location,
                has_draft := false, draft_s3_location := none } else s),
           skillVersions := st.skillVersions,
           localMirror := setMirror st.localMirror (get_skill_folder_name skill) v },
         { skill with
           current_version := v,
           s3_location := some vr.s3_location,
           has_draft := false, draft_s3_location := none }) := by
      unfold rollback_skill_version
      simp only [hfind, hvr]
    refine ⟨_, _, hok, rfl, rfl, rfl, ?_, ?_⟩
    · exact find?_map_const_update (fun s => s.id = skillId)
        { skill with
          current_version := v,
          s3_location := some vr.s3_location,
          has_draft := false, draft_s3_location := none }
        hid st.skills skill hfind
    · simp [setMirror, List.lookup]
  · intro hnone
    unfold rollback_skill_version
    simp only [hfind, hnone]

/-- A concrete skill with a draft at version 1, for the C7/C8 witnesses. -/
def sampleSkill : Skill where
  id := "sk1"
  name := "Demo"
  current_version := 1
  has_draft := true
  s3_location := some "s3://bucket/skills/demo/v1/"

/-- A skills state holding [[sampleSkill]] and its version-1 record. -/
def sampleSkillsState : SkillsState where
  skills := [sampleSkill]
  skillVersions := [{ id := "v1", skill_id := "sk1", version := 1,
                      s3_location := "s3://bucket/skills/demo/v1/" }]
  localMirror := [("demo", 1)]

/-- **C7** witness: publishing the draft of [[sampleSkill]] (version 1)
creates version 2. -/
theorem C7_witness :
    ∃ st' updated,
      publish_skill_draft sampleSkillsState "bucket" "sk1" none "v2" = .ok (st', updated) ∧
      updated.current_version = sampleSkill.current_version + 1 ∧
      updated.has_draft = false ∧
      st'.skills.find? (fun s => s.id = "sk1") = some updated ∧
      st'.skillVersions = sampleSkillsState.skillVersions ++
        [{ id := "v2", skill_id := "sk1", version := sampleSkill.current_version + 1,
           s3_location := versionLocation "bucket" (get_skill_folder_name sampleSkill)
             (sampleSkill.current_version + 1),
           change_summary := none }] :=
  (C7_publish_draft sampleSkillsState "bucket" "sk1" "v2" none sampleSkill
    (by decide)).1 rfl

/-- **C8** witness: rolling [[sampleSkill]] back to its existing version 1
(the draft is discarded and the mirror holds version 1). -/
theorem C8_witness :
    ∃ st' updated,
      rollback_skill_version sampleSkillsState "sk1" 1 = .ok (st', updated) ∧
      updated.current_version = 1 ∧
      updated.has_draft = false ∧
      updated.s3_location = some "s3://bucket/skills/demo/v1/" ∧
      st'.skills.find? (fun s => s.id = "sk1") = some updated ∧
      st'.localMirror.lookup (get_skill_folder_name sampleSkill) = some 1 :=
  (C8_rollback sampleSkillsState "sk1" 1 sampleSkill (by decide)).1
    { id := "v1", skill_id := "sk1", version := 1,
      s3_location := "s3://bucket/skills/demo/v1/" } (by decide)

/-- **C9** (confirmed).  An agent created with `global_user_mode = true` is
stored (and read back) with `allow_all_skills = true` and `skill_ids = []`;
likewise an update whose effective `global_user_mode` is true forces
`allow_all_skills = true` and `skill_ids = []` into the stored record. -/
theorem C9_global_user_mode (agents : List AgentRecord) (req : AgentCreateRequest)
    (newId agentId : String) (u : AgentUpdateRequest) (existing : AgentRecord) :
    (req.global_user_mode = true → (∀ a ∈ agents, ¬ a.id = newId) →
      (create_agent agents req newId).2.allow_all_skills = true ∧
      (create_agent agents req newId).2.skill_ids = [] ∧
      get_agent (create_agent agents req newId).1 newId
        = some (create_agent agents req newId).2) ∧
    (get_agent agents agentId = some existing →
      u.global_user_mode.getD existing.global_user_mode = true →
      ∃ agents' agent, update_agent agents agentId u = some (agents', agent) ∧
        agent.allow_all_skills = true ∧
        agent.skill_ids = [] ∧
        get_agent agents' agentId = some agent) := by
  constructor
  · intro hgum hfresh
    refine ⟨?_, ?_, ?_⟩
    · simp [create_agent, hgum]
    · simp [create_agent, hgum]
    · exact find?_append_fresh (fun a => a.id = newId) agents
        (create_agent agents req newId).2 hfresh rfl
  · intro hfind hgum
    have hfind' : agents.find? (fun a => a.id = agentId) = some existing := hfind
    have hid : existing.id = agentId := by simpa using List.find?_some hfind'
    have hok : update_agent agents agentId u = some
        (agents.map (fun a => if a.id = agentId then
          { existing with
            name := u.name.getD existing.name,
            skill_ids := [],
            allow_all_skills := true,
            global_user_mode := true,
            enable_human_approval :=
              u.enable_human_approval.getD existing.enable_human_approval } else a),
         { existing with
           name := u.name.getD existing.name,
           skill_ids := [],
           allow_all_skills := true,
           global_user_mode := true,
           enable_human_approval :=
             u.enable_human_approval.getD existing.enable_human_approval }) := by
      unfold update_agent
      simp only [hfind, hgum, if_true]
      rfl
    refine ⟨_, _, hok, rfl, rfl, ?_⟩
    exact find?_map_const_update (fun a => a.id = agentId)
      { existing with
        name := u.name.getD existing.name,
        skill_ids := [],
        allow_all_skills := true,
        global_user_mode := true,
        enable_human_approval :=
          u.enable_human_approval.getD existing.enable_human_approval }
      hid agents existing hfind'

/-- A concrete create request with `global_user_mode = true` and nonempty
`skill_ids`, for the C9 witness. -/
def sampleCreateReq : AgentCreateRequest where
  name := "a"
  skill_ids := ["s1"]
  global_user_mode := true

/-- A stored agent with `global_user_mode = false`, for the C9 witness. -/
def sampleAgent : AgentRecord where
  id := "agent-1"
  name := "a"
  skill_ids := ["s1"]
  allow_all_skills := false
  global_user_mode := false

/-- The update request switching [[sampleAgent]] into global user mode. -/
def sampleUpdateReq : AgentUpdateRequest where
  global_user_mode := some true

/-- **C9** witness: create and update at concrete records with
`global_user_mode = true`. -/
theorem C9_witness :
    ((create_agent [] sampleCreateReq "agent-1").2.allow_all_skills = true ∧
      (create_agent [] sampleCreateReq "agent-1").2.skill_ids = [] ∧
      get_agent (create_agent [] sampleCreateReq "agent-1").1 "agent-1"
        = some (create_agent [] sampleCreateReq "agent-1").2) ∧
    (∃ agents' agent,
      update_agent [sampleAgent] "agent-1" sampleUpdateReq = some (agents', agent) ∧
      agent.allow_all_skills = true ∧
      agent.skill_ids = [] ∧
      get_agent agents' "agent-1" = some agent) :=
  ⟨(C9_global_user_mode [] sampleCreateReq "agent-1" "agent-1"
      sampleUpdateReq sampleAgent).1 rfl (by decide),
   (C9_global_user_mode [sampleAgent] sampleCreateReq "agent-1" "agent-1"
      sampleUpdateReq sampleAgent).2 (by decide) rfl⟩

/-- **C10** (confirmed).  Every name returned by `get_all_skill_names` comes
from a directory entry containing `SKILL.md`, and no returned name starts
with `.` (hidden directories are excluded even when they contain
`SKILL.md`); `scan_local_skills` applies exactly the same per-entry
filter. -/
theorem C10_skill_scan (home ws entries : List DirEntry) (n : String) :
    (n ∈ get_all_skill_names home ws →
      (∃ e, (e ∈ home ∨ e ∈ ws) ∧ e.name = n ∧ e.isDir = true ∧ e.hasSkillMd = true) ∧
      pyStartswith n "." = false) ∧
    (n ∈ scan_local_skills entries ↔
      ∃ e ∈ entries, e.name = n ∧ skillDirFilter e = true) := by
  constructor
  · intro hmem
    rw [get_all_skill_names, List.mem_dedup, List.mem_append] at hmem
    have main : ∃ e, (e ∈ home ∨ e ∈ ws) ∧ e.name = n ∧ skillDirFilter e = true := by
      rcases hmem with hmem | hmem
      · obtain ⟨e, he, hname⟩ := List.mem_map.mp hmem
        obtain ⟨hmem', hfil⟩ := List.mem_filter.mp he
        exact ⟨e, Or.inl hmem', hname, hfil⟩
      · obtain ⟨e, he, hname⟩ := List.mem_map.mp hmem
        obtain ⟨hmem', hfil⟩ := List.mem_filter.mp he
        exact ⟨e, Or.inr hmem', hname, hfil⟩
    obtain ⟨e, hloc, hname, hfil⟩ := main
    simp only [skillDirFilter, Bool.and_eq_true, Bool.not_eq_true'] at hfil
    refine ⟨⟨e, hloc, hname, hfil.1.1, hfil.2⟩, ?_⟩
    rw [← hname]
    exact hfil.1.2
  · simp only [scan_local_skills, List.mem_map, List.mem_filter]
    constructor
    · rintro ⟨e, ⟨hmem, hfil⟩, hname⟩
      exact ⟨e, hmem, hname, hfil⟩
    · rintro ⟨e, hmem, hname, hfil⟩
      exact ⟨e, ⟨hmem, hfil⟩, hname⟩

/-- **C10** witness: a scan containing a valid skill directory and a hidden
one; `pptx` is returned and is backed by a `SKILL.md` directory. -/
theorem C10_witness :
    (∃ e, (e ∈ [({ name := "pptx", isDir := true, hasSkillMd := true } : DirEntry),
                { name := ".hidden", isDir := true, hasSkillMd := true }] ∨
           e ∈ ([] : List DirEntry)) ∧
      e.name = "pptx" ∧ e.isDir = true ∧ e.hasSkillMd = true) ∧
    pyStartswith "pptx" "." = false :=
  (C10_skill_scan
    [{ name := "pptx", isDir := true, hasSkillMd := true },
     { name := ".hidden", isDir := true, hasSkillMd := true }]
    [] [] "pptx").1 (by decide)

end OWork
